import Mathlib

/-!
# Card selection handler of the analytic kanban view

A verification development for `static/src/js/analytic.js`: the controller
`AnalyticKanbanController` with its two methods `setup` (which registers a click
listener on the document once the view is mounted) and `onCardClick`.

The rendered tree is embedded as a forest of elements in first-child /
next-sibling form, an element is addressed by the list of child indices leading
to it, and the host services used by the handler (`Element.closest`,
`querySelectorAll`, `classList`, `dataset`, the notification service and the
clipboard) are embedded as pure functions on that state.
-/

namespace Analytic

/-! ## Data model -/

/-- A JavaScript value that is either a string or `undefined` (`none`). -/
abbrev JSString := Option String

/-- An element of the rendered tree: the token set of its `class` attribute and
its `data-*` attributes (`dataset`), as key/value pairs. -/
structure Element where
  classList : List String
  dataset : List (String × String)
  deriving DecidableEq, Repr

/-- The rendered tree below the document root, in first-child / next-sibling
form: `cons el children siblings`. -/
inductive Forest where
  | nil : Forest
  | cons (el : Element) (children : Forest) (siblings : Forest) : Forest
  deriving DecidableEq, Repr

/-- The address of an element: child indices from the document root downwards. -/
abbrev Path := List Nat

/-- The marker class of a selectable card, the selector of lines 18 and 25. -/
def cardClass : String := "analytic-select-card"

/-- The marker class of the selected card, lines 26 and 30. -/
def selectedClass : String := "selected"

/-- The call `classList.contains(token)`. -/
def classListContains (el : Element) (token : String) : Bool :=
  decide (token ∈ el.classList)

/-- The call `classList.remove(token)`: the token leaves the token set. -/
def classListRemove (token : String) (el : Element) : Element :=
  { el with classList := el.classList.filter (fun t => t ≠ token) }

/-- The call `classList.add(token)`: the token joins the token set unless already there. -/
def classListAdd (token : String) (el : Element) : Element :=
  { el with classList :=
      if token ∈ el.classList then el.classList else el.classList ++ [token] }

/-- The read `el.dataset[key]`: the value of the attribute `data-key`, `undefined` when
the attribute is absent. -/
def datasetGet (el : Element) (key : String) : JSString :=
  (el.dataset.find? (fun kv => kv.1 = key)).map Prod.snd

/-- An element matches the selector `.analytic-select-card`. -/
def isCard (el : Element) : Bool := classListContains el cardClass

/-- An element carries the `selected` marker. -/
def isSelected (el : Element) : Bool := classListContains el selectedClass

/-- The element at an address, if there is one. -/
def Forest.get? : Forest → Path → Option Element
  | .nil, _ => none
  | .cons _ _ _, [] => none
  | .cons el _ _, [0] => some el
  | .cons _ children _, 0 :: j :: p => children.get? (j :: p)
  | .cons _ _ siblings, (i + 1) :: p => siblings.get? (i :: p)

/-- Apply `f` to the element at address `p` (nothing happens when there is no
such element). -/
def Forest.modifyAt (f : Element → Element) : Forest → Path → Forest
  | .nil, _ => .nil
  | .cons el children siblings, [] => .cons el children siblings
  | .cons el children siblings, [0] => .cons (f el) children siblings
  | .cons el children siblings, 0 :: j :: p =>
      .cons el (children.modifyAt f (j :: p)) siblings
  | .cons el children siblings, (i + 1) :: p =>
      .cons el children (siblings.modifyAt f (i :: p))

/-- The statement `document.querySelectorAll('.analytic-select-card').forEach(f)`: `f` runs on
every element of the tree that matches the card selector. -/
def Forest.forEachCard (f : Element → Element) : Forest → Forest
  | .nil => .nil
  | .cons el children siblings =>
      .cons (if isCard el then f el else el)
        (children.forEachCard f) (siblings.forEachCard f)

/-- The property `parentElement` on addresses: the address of the parent; the parent of a
top-level element is the document root `[]`, which is not an element. -/
def parentPath (p : Path) : Path := p.dropLast

/-- The inclusive ancestors of the element at `p`, innermost first: the element
itself, its parent, and so on up to a top-level element. -/
def inclusiveAncestors (p : Path) : List Path :=
  List.iterate parentPath p p.length

/-- The element at `p` exists and matches `.analytic-select-card`. -/
def isCardAt (doc : Forest) (p : Path) : Bool :=
  match doc.get? p with
  | some el => isCard el
  | none => false

/-- The call `target.closest('.analytic-select-card')`: the first inclusive ancestor of
the target, starting at the target itself, that matches the selector; `none`
stands for `null`. -/
def closest (doc : Forest) (target : Path) : Option Path :=
  (inclusiveAncestors target).find? (isCardAt doc)

/-! ## Services and the handler -/

/-- The options object passed to `notification.add`. -/
structure NotificationOptions where
  type : String
  sticky : Bool
  deriving DecidableEq, Repr

/-- A thrown JavaScript error, identified by its message. -/
abbrev JSError := String

/-- The host services the handler calls: `this.env.services.notification.add`,
which returns or throws, and `navigator.clipboard`, which is `undefined`
(`none`) where the host offers no clipboard, as outside a secure context, and is
otherwise an object whose `writeText` returns a promise that is later fulfilled
(`true`) or rejected (`false`). -/
structure Services where
  notificationAdd : String → NotificationOptions → Except JSError Unit
  clipboard : Option (JSString → Bool)

/-- The calls the handler makes on the event and on the host services. -/
inductive Call where
  | preventDefault : Call
  | stopPropagation : Call
  | notificationAdd (message : String) (options : NotificationOptions) : Call
  | writeText (data : JSString) : Call
  deriving DecidableEq, Repr

/-- What one run of the handler leaves behind: the rendered tree, the calls it
made in order, and the error it threw, if any. -/
structure Outcome where
  document : Forest
  calls : List Call
  thrown : Option JSError
  deriving DecidableEq, Repr

/-- String conversion inside a template literal: `undefined` prints as
"undefined". -/
def toStr : JSString → String
  | some s => s
  | none => "undefined"

/-- The template literal of line 38. -/
def toastMessage (name id : JSString) : String :=
  "✅ SELECTED: " ++ toStr name ++ " (ID: " ++ toStr id ++ ")"

/-- The options literal of line 39. -/
def toastOptions : NotificationOptions := { type := "success", sticky := false }

/-- The `TypeError` of line 18 when `ev.target` is the document node, which has
no method `closest`. -/
def closestTypeError : JSError := "TypeError: ev.target.closest is not a function"

/-- The `TypeError` of line 43 when `navigator.clipboard` is `undefined`. -/
def clipboardTypeError : JSError :=
  "TypeError: Cannot read properties of undefined (reading 'writeText')"

/-- The method `AnalyticKanbanController.onCardClick(ev)` with `ev.target` the node at
`target` (lines 17-44); the address `[]` is the document node itself. -/
def onCardClick (env : Services) (doc : Forest) (target : Path) : Outcome :=
  if target = [] then
    { document := doc, calls := [], thrown := some closestTypeError }
  else
  match closest doc target with
  | none => { document := doc, calls := [], thrown := none }
  | some card =>
    let doc1 := doc.forEachCard (classListRemove selectedClass)
    let doc2 := doc1.modifyAt (classListAdd selectedClass) card
    let id : JSString := (doc2.get? card).bind (fun el => datasetGet el "id")
    let name : JSString := (doc2.get? card).bind (fun el => datasetGet el "name")
    let toast := Call.notificationAdd (toastMessage name id) toastOptions
    match env.notificationAdd (toastMessage name id) toastOptions with
    | .error e =>
        { document := doc2
          calls := [Call.preventDefault, Call.stopPropagation, toast]
          thrown := some e }
    | .ok _ =>
        match env.clipboard with
        | none =>
            { document := doc2
              calls := [Call.preventDefault, Call.stopPropagation, toast]
              thrown := some clipboardTypeError }
        | some writeText =>
            let _promise := writeText id
            { document := doc2
              calls := [Call.preventDefault, Call.stopPropagation, toast, Call.writeText id]
              thrown := none }

/-- The handler runs once for each click of a sequence, each on the tree the
previous one left. -/
def clicks (env : Services) (doc : Forest) : List Path → Forest
  | [] => doc
  | target :: rest => clicks env (onCardClick env doc target).document rest

/-! ## The listeners of the document -/

/-- The part of the page the controller acts on: the rendered tree and the click
listeners registered on the document root, in registration order. Every such
listener is `onCardClick` bound to a controller, which is represented by the
environment `this.env` it reads its services from. -/
structure Page where
  document : Forest
  clickListeners : List Services

/-- The callback registered by `setup` through `onMounted` (lines 11-14), run when the
view is mounted: `document.addEventListener('click', this.onCardClick.bind(this))`.
The bound function is a new object on every call, so the host never finds it
among the registered listeners and always appends it. -/
def onMounted (self : Services) (page : Page) : Page :=
  { page with clickListeners := page.clickListeners ++ [self] }

/-- The view is mounted `n` times. -/
def mountTimes (self : Services) : Nat → Page → Page
  | 0, page => page
  | n + 1, page => mountTimes self n (onMounted self page)

/-- What the dispatch of one click leaves behind: the page and the outcome of
each listener that ran, in order. -/
structure Dispatched where
  page : Page
  outcomes : List Outcome

/-- The listeners run in order on the same event, each on the tree the previous
one left; a listener that stops propagation, or throws, does not keep the later
listeners of the same node from running. The result is the final tree and the
outcome of every listener. -/
def runListeners (target : Path) : List Services → Forest → Forest × List Outcome
  | [], doc => (doc, [])
  | self :: rest, doc =>
      let out := onCardClick self doc target
      let later := runListeners target rest out.document
      (later.1, out :: later.2)

/-- The host dispatches a click on the element at `target` to the click listeners
of the document root. -/
def dispatchClick (page : Page) (target : Path) : Dispatched :=
  let ran := runListeners target page.clickListeners page.document
  { page := { page with document := ran.1 }, outcomes := ran.2 }

/-! ## Observations used in the statements -/

/-- What lines 25-30 do to the element at `q` when the resolved card is `card`. -/
def selectEl (card q : Path) (el : Element) : Element :=
  if q = card then
    classListAdd selectedClass (if isCard el then classListRemove selectedClass el else el)
  else if isCard el then classListRemove selectedClass el else el

/-- The element at `p` exists, is a card and carries the `selected` marker. -/
def isSelectedCardAt (doc : Forest) (p : Path) : Bool :=
  match doc.get? p with
  | some el => isCard el && isSelected el
  | none => false

/-- The number of cards of the tree that carry the `selected` marker. -/
def Forest.countSelectedCards : Forest → Nat
  | .nil => 0
  | .cons el children siblings =>
      (if isCard el && isSelected el then 1 else 0)
        + children.countSelectedCards + siblings.countSelectedCards

/-- Apply `f` to every element of the tree. -/
def Forest.map (f : Element → Element) : Forest → Forest
  | .nil => .nil
  | .cons el children siblings => .cons (f el) (children.map f) (siblings.map f)

/-- Two trees differ at most in which elements carry the `selected` marker. -/
def SameUpToSelected (doc₁ doc₂ : Forest) : Prop :=
  doc₁.map (classListRemove selectedClass) = doc₂.map (classListRemove selectedClass)

instance (doc₁ doc₂ : Forest) : Decidable (SameUpToSelected doc₁ doc₂) := by
  unfold SameUpToSelected; infer_instance

/-- The call is a request to the notification service. -/
def Call.isNotification : Call → Bool
  | .notificationAdd _ _ => true
  | _ => false

/-- The call is a request to write to the clipboard. -/
def Call.isClipboardWrite : Call → Bool
  | .writeText _ => true
  | _ => false

/-- The calls of all the outcomes, in order. -/
def allCalls : List Outcome → List Call
  | [] => []
  | out :: rest => out.calls ++ allCalls rest

/-- A notification service that displays the toast and returns. -/
def notificationOk : String → NotificationOptions → Except JSError Unit :=
  fun _ _ => .ok ()

/-- A notification service that throws the given error. -/
def notificationThrows (e : JSError) : String → NotificationOptions → Except JSError Unit :=
  fun _ _ => .error e

/-- An environment whose services work: the toast is displayed and the clipboard
write is later fulfilled. -/
def envOk : Services :=
  { notificationAdd := notificationOk, clipboard := some (fun _ => true) }

/-- An environment without a clipboard: `navigator.clipboard` is `undefined`. -/
def envNoClipboard : Services := { notificationAdd := notificationOk, clipboard := none }

/-- An element with the given classes, `data-id` and `data-name`. -/
def mkElement (classes : List String) (id name : String) : Element :=
  { classList := classes, dataset := [("id", id), ("name", name)] }

/-- A small board: a column (not a card) holding the card "42" (Marketing,
selected), inside it a nested card "7" (Sales), next to it the card "9"
(Support, selected); and after the column a plain footer element. -/
def sampleBoard : Forest :=
  .cons { classList := ["o_kanban_group"], dataset := [] }
    (.cons (mkElement ["analytic-select-card", "selected"] "42" "Marketing")
      (.cons (mkElement ["analytic-select-card"] "7" "Sales") .nil .nil)
      (.cons (mkElement ["selected", "analytic-select-card"] "9" "Support") .nil .nil))
    (.cons { classList := ["footer", "selected"], dataset := [] } .nil .nil)

/-- The sample board with no card selected; the footer keeps its `selected`
class. -/
def clearedBoard : Forest :=
  .cons { classList := ["o_kanban_group"], dataset := [] }
    (.cons (mkElement ["analytic-select-card"] "42" "Marketing")
      (.cons (mkElement ["analytic-select-card"] "7" "Sales") .nil .nil)
      (.cons (mkElement ["analytic-select-card"] "9" "Support") .nil .nil))
    (.cons { classList := ["footer", "selected"], dataset := [] } .nil .nil)

/-- An environment whose notification service throws "toast failed". -/
def envFailing : Services :=
  { notificationAdd := notificationThrows "toast failed", clipboard := some (fun _ => true) }

/-! ## Elements -/

theorem selectedClass_ne_cardClass : selectedClass ≠ cardClass := by decide

theorem isCard_classListRemove (el : Element) :
    isCard (classListRemove selectedClass el) = isCard el := by
  have h := selectedClass_ne_cardClass
  simp only [isCard, classListContains, classListRemove, List.mem_filter]
  by_cases hc : cardClass ∈ el.classList
  · simp [hc, Ne.symm h]
  · simp [hc]

theorem isSelected_classListRemove (el : Element) :
    isSelected (classListRemove selectedClass el) = false := by
  simp [isSelected, classListContains, classListRemove, List.mem_filter]

theorem isCard_classListAdd (el : Element) :
    isCard (classListAdd selectedClass el) = isCard el := by
  have h := selectedClass_ne_cardClass
  simp only [isCard, classListContains, classListAdd]
  split
  · rfl
  · simp [Ne.symm h]

theorem isSelected_classListAdd (el : Element) :
    isSelected (classListAdd selectedClass el) = true := by
  simp only [isSelected, classListContains, classListAdd]
  split <;> simp_all

theorem dataset_classListRemove (tok : String) (el : Element) :
    (classListRemove tok el).dataset = el.dataset := rfl

theorem dataset_classListAdd (tok : String) (el : Element) :
    (classListAdd tok el).dataset = el.dataset := rfl

/-! ## Addressing -/

theorem get?_nil_path (doc : Forest) : doc.get? [] = none := by
  cases doc <;> rfl

theorem get?_forEachCard (f : Element → Element) (doc : Forest) (p : Path) :
    (doc.forEachCard f).get? p
      = (doc.get? p).map (fun el => if isCard el then f el else el) := by
  induction doc generalizing p with
  | nil => rfl
  | cons el c s ihc ihs =>
    match p with
    | [] => rfl
    | [0] => rfl
    | 0 :: j :: p => simpa [Forest.forEachCard, Forest.get?] using ihc (j :: p)
    | (i + 1) :: p => simpa [Forest.forEachCard, Forest.get?] using ihs (i :: p)

theorem get?_modifyAt (f : Element → Element) (doc : Forest) (p q : Path) :
    (doc.modifyAt f p).get? q
      = if q = p then (doc.get? p).map f else doc.get? q := by
  induction doc generalizing p q with
  | nil => cases p <;> simp [Forest.modifyAt, Forest.get?]
  | cons el c s ihc ihs =>
    match p, q with
    | [], q =>
      simp only [Forest.modifyAt, get?_nil_path, Option.map_none']
      split
      · next h => subst h; rfl
      · rfl
    | [0], [] => simp [Forest.modifyAt, Forest.get?]
    | [0], [0] => simp [Forest.modifyAt, Forest.get?]
    | [0], 0 :: j :: q => simp [Forest.modifyAt, Forest.get?]
    | [0], (i + 1) :: q => simp [Forest.modifyAt, Forest.get?]
    | 0 :: j :: p, [] => simp [Forest.modifyAt, Forest.get?]
    | 0 :: j :: p, [0] => simp [Forest.modifyAt, Forest.get?]
    | 0 :: j :: p, 0 :: k :: q =>
      have := ihc (j :: p) (k :: q)
      simp only [Forest.modifyAt, Forest.get?, this]
      simp
    | 0 :: j :: p, (i + 1) :: q => simp [Forest.modifyAt, Forest.get?]
    | (i + 1) :: p, [] => simp [Forest.modifyAt, Forest.get?]
    | (i + 1) :: p, [0] => simp [Forest.modifyAt, Forest.get?]
    | (i + 1) :: p, 0 :: k :: q => simp [Forest.modifyAt, Forest.get?]
    | (i + 1) :: p, (k + 1) :: q =>
      have := ihs (i :: p) (k :: q)
      simp only [Forest.modifyAt, Forest.get?, this]
      simp

/-! ## Resolving the card of a click -/

theorem le_dropLast_or_eq {q p : Path} (h : q <+: p) : q = p ∨ q <+: parentPath p := by
  obtain ⟨t, rfl⟩ := h
  by_cases ht : t = []
  · left; simp [ht]
  · right
    unfold parentPath
    rw [List.dropLast_append_of_ne_nil _ ht]
    exact ⟨t.dropLast, rfl⟩

theorem parentPath_le (p : Path) : parentPath p <+: p := by
  unfold parentPath
  exact List.dropLast_prefix p

theorem find?_iterate_some (m : Path → Bool) :
    ∀ (n : Nat) (p r : Path), p.length = n →
      (List.iterate parentPath p n).find? m = some r →
      r ≠ [] ∧ r <+: p ∧ m r = true ∧
        ∀ q, q ≠ [] → q <+: p → m q = true → q <+: r := by
  intro n
  induction n with
  | zero => intro p r _ h; simp [List.iterate] at h
  | succ n ih =>
    intro p r hp h
    have hne : p ≠ [] := by intro h0; subst h0; simp at hp
    rw [List.iterate, List.find?_cons] at h
    cases hm : m p with
    | true =>
      rw [hm] at h
      injection h with h
      subst h
      exact ⟨hne, List.prefix_refl _, hm, fun q _ hq _ => hq⟩
    | false =>
      rw [hm] at h
      have hlen : (parentPath p).length = n := by
        simp [parentPath, List.length_dropLast, hp]
      obtain ⟨h1, h2, h3, h4⟩ := ih (parentPath p) r hlen h
      refine ⟨h1, h2.trans (parentPath_le p), h3, ?_⟩
      intro q hq hqp hmq
      rcases le_dropLast_or_eq hqp with heq | hlt
      · subst heq; rw [hm] at hmq; cases hmq
      · exact h4 q hq hlt hmq

theorem find?_iterate_none (m : Path → Bool) :
    ∀ (n : Nat) (p : Path), p.length = n →
      (List.iterate parentPath p n).find? m = none →
      ∀ q, q ≠ [] → q <+: p → m q = false := by
  intro n
  induction n with
  | zero =>
    intro p hp _ q hq hqp
    have : p = [] := List.length_eq_zero.mp hp
    subst this
    exact absurd (List.prefix_nil.mp hqp) hq
  | succ n ih =>
    intro p hp h q hq hqp
    rw [List.iterate, List.find?_cons] at h
    cases hm : m p with
    | true => rw [hm] at h; cases h
    | false =>
      rw [hm] at h
      have hlen : (parentPath p).length = n := by
        simp [parentPath, List.length_dropLast, hp]
      rcases le_dropLast_or_eq hqp with heq | hlt
      · subst heq; exact hm
      · exact ih (parentPath p) hlen h q hq hlt

/-- The resolved card is an inclusive ancestor of the target, it is a card, and
every inclusive ancestor of the target that is a card encloses it. -/
theorem closest_some {doc : Forest} {target card : Path}
    (h : closest doc target = some card) :
    card ≠ [] ∧ card <+: target ∧ isCardAt doc card = true ∧
      ∀ q, q ≠ [] → q <+: target → isCardAt doc q = true → q <+: card :=
  find?_iterate_some (isCardAt doc) target.length target card rfl h

theorem closest_none {doc : Forest} {target : Path}
    (h : closest doc target = none) :
    ∀ q, q ≠ [] → q <+: target → isCardAt doc q = false :=
  find?_iterate_none (isCardAt doc) target.length target rfl h

theorem closest_isSome_iff (doc : Forest) (target : Path) :
    (closest doc target).isSome = true ↔
      ∃ q, q <+: target ∧ isCardAt doc q = true := by
  constructor
  · intro h
    obtain ⟨card, hc⟩ := Option.isSome_iff_exists.mp h
    obtain ⟨_, h2, h3, _⟩ := closest_some hc
    exact ⟨card, h2, h3⟩
  · rintro ⟨q, hq, hm⟩
    cases hc : closest doc target with
    | some c => rfl
    | none =>
      have hne : q ≠ [] := by
        intro h0; subst h0
        simp [isCardAt, get?_nil_path] at hm
      have := closest_none hc q hne hq
      rw [this] at hm; cases hm

theorem isCardAt_iff (doc : Forest) (p : Path) :
    isCardAt doc p = true ↔ ∃ el, doc.get? p = some el ∧ isCard el = true := by
  unfold isCardAt
  cases doc.get? p <;> simp

/-! ## The tree after a click -/

theorem closest_target_ne_nil {doc : Forest} {target card : Path}
    (h : closest doc target = some card) : target ≠ [] := by
  obtain ⟨h1, h2, _⟩ := closest_some h
  intro ht
  subst ht
  exact h1 (List.prefix_nil.mp h2)

theorem onCardClick_none (env : Services) {doc : Forest} {target : Path}
    (h : closest doc target = none) :
    onCardClick env doc target
      = { document := doc, calls := [],
          thrown := if target = [] then some closestTypeError else none } := by
  by_cases ht : target = []
  · simp [onCardClick, ht]
  · simp [onCardClick, h, ht]

theorem onCardClick_document (env : Services) {doc : Forest} {target card : Path}
    (h : closest doc target = some card) :
    (onCardClick env doc target).document
      = (doc.forEachCard (classListRemove selectedClass)).modifyAt
          (classListAdd selectedClass) card := by
  simp only [onCardClick, h, closest_target_ne_nil h, if_false]
  cases env.notificationAdd _ _ with
  | error e => rfl
  | ok u => cases env.clipboard <;> rfl

theorem get?_onCardClick (env : Services) {doc : Forest} {target card : Path}
    (h : closest doc target = some card) (q : Path) :
    (onCardClick env doc target).document.get? q
      = (doc.get? q).map (selectEl card q) := by
  rw [onCardClick_document _ h, get?_modifyAt, get?_forEachCard, get?_forEachCard]
  by_cases hq : q = card
  · subst hq
    rw [if_pos rfl]
    cases doc.get? q <;> simp [selectEl]
  · rw [if_neg hq]
    cases doc.get? q <;> simp [selectEl, hq]

theorem isCard_selectEl (card q : Path) (el : Element) :
    isCard (selectEl card q el) = isCard el := by
  unfold selectEl
  split
  · rw [isCard_classListAdd]; split
    · exact isCard_classListRemove el
    · rfl
  · split
    · exact isCard_classListRemove el
    · rfl

theorem dataset_selectEl (card q : Path) (el : Element) :
    (selectEl card q el).dataset = el.dataset := by
  unfold selectEl
  split <;> split <;> rfl

theorem selectEl_of_not_card (card q : Path) (el : Element) (hq : q ≠ card)
    (h : isCard el = false) : selectEl card q el = el := by
  simp [selectEl, hq, h]

theorem isSelected_selectEl_self (card : Path) (el : Element) :
    isSelected (selectEl card card el) = true := by
  simp [selectEl, isSelected_classListAdd]

theorem isSelected_selectEl_other (card q : Path) (el : Element) (hq : q ≠ card)
    (h : isCard el = true) : isSelected (selectEl card q el) = false := by
  simp [selectEl, hq, h, isSelected_classListRemove]

theorem isCardAt_onCardClick (env : Services) (doc : Forest) (target q : Path) :
    isCardAt (onCardClick env doc target).document q = isCardAt doc q := by
  cases h : closest doc target with
  | none => rw [onCardClick_none _ h]
  | some card =>
    unfold isCardAt
    rw [get?_onCardClick _ h]
    cases doc.get? q <;> simp [isCard_selectEl]

theorem isSelectedCardAt_onCardClick (env : Services) {doc : Forest} {target card : Path}
    (h : closest doc target = some card) (q : Path) :
    isSelectedCardAt (onCardClick env doc target).document q = true ↔ q = card := by
  have hc := (closest_some h).2.2.1
  unfold isSelectedCardAt
  rw [get?_onCardClick _ h]
  constructor
  · intro hs
    by_contra hne
    cases hg : doc.get? q with
    | none => simp [hg] at hs
    | some el =>
      simp only [hg, Option.map_some', Bool.and_eq_true, isCard_selectEl] at hs
      rw [isSelected_selectEl_other card q el hne hs.1] at hs
      exact absurd hs.2 (by simp)
  · intro hq
    subst hq
    obtain ⟨el, hg, hcard⟩ := (isCardAt_iff doc q).mp hc
    simp [hg, isCard_selectEl, hcard, isSelected_selectEl_self]

/-! ## Counting the selected cards -/

theorem countSelectedCards_forEachCard (doc : Forest) :
    (doc.forEachCard (classListRemove selectedClass)).countSelectedCards = 0 := by
  induction doc with
  | nil => rfl
  | cons el c s ihc ihs =>
    simp only [Forest.forEachCard, Forest.countSelectedCards, ihc, ihs]
    by_cases h : isCard el = true
    · simp [h, isSelected_classListRemove]
    · simp [h]

theorem countSelectedCards_modifyAt (doc : Forest) (p : Path) (el : Element)
    (hg : doc.get? p = some el) (hc : isCard el = true) (hs : isSelected el = false) :
    (doc.modifyAt (classListAdd selectedClass) p).countSelectedCards
      = doc.countSelectedCards + 1 := by
  induction doc generalizing p with
  | nil => simp [Forest.get?] at hg
  | cons e c s ihc ihs =>
    match p with
    | [] => simp [Forest.get?] at hg
    | [0] =>
      simp only [Forest.get?, Option.some.injEq] at hg
      subst hg
      simp [Forest.modifyAt, Forest.countSelectedCards, isCard_classListAdd,
        isSelected_classListAdd, hc, hs]
      omega
    | 0 :: j :: p =>
      simp only [Forest.get?] at hg
      simp only [Forest.modifyAt, Forest.countSelectedCards, ihc (j :: p) hg]
      omega
    | (i + 1) :: p =>
      simp only [Forest.get?] at hg
      simp only [Forest.modifyAt, Forest.countSelectedCards, ihs (i :: p) hg]
      omega

theorem countSelectedCards_onCardClick (env : Services) {doc : Forest} {target card : Path}
    (h : closest doc target = some card) :
    (onCardClick env doc target).document.countSelectedCards = 1 := by
  obtain ⟨el, hg, hcard⟩ := (isCardAt_iff doc card).mp (closest_some h).2.2.1
  rw [onCardClick_document _ h]
  rw [countSelectedCards_modifyAt _ card (classListRemove selectedClass el)
    (by rw [get?_forEachCard, hg]; simp [hcard])
    (by rw [isCard_classListRemove]; exact hcard)
    (isSelected_classListRemove el)]
  rw [countSelectedCards_forEachCard]

theorem closest_of_ancestor {doc : Forest} {target : Path}
    (h : ∃ anc, anc <+: target ∧ isCardAt doc anc = true) :
    ∃ card, closest doc target = some card :=
  Option.isSome_iff_exists.mp ((closest_isSome_iff doc target).mpr h)

theorem isCardAt_ne_nil {doc : Forest} {q : Path} (h : isCardAt doc q = true) : q ≠ [] := by
  intro h0; subst h0
  simp [isCardAt, get?_nil_path] at h

theorem one_le_countSelectedCards {doc : Forest} {p : Path}
    (h : isSelectedCardAt doc p = true) : 1 ≤ doc.countSelectedCards := by
  induction doc generalizing p with
  | nil => simp [isSelectedCardAt, Forest.get?] at h
  | cons el c s ihc ihs =>
    match p with
    | [] => simp [isSelectedCardAt, Forest.get?] at h
    | [0] =>
      have h0 : (isCard el && isSelected el) = true := by
        simpa [isSelectedCardAt, Forest.get?] using h
      simp only [Forest.countSelectedCards, h0, if_true]
      omega
    | 0 :: j :: p =>
      have := @ihc (j :: p) (by simpa [isSelectedCardAt, Forest.get?] using h)
      simp only [Forest.countSelectedCards]
      omega
    | (i + 1) :: p =>
      have := @ihs (i :: p) (by simpa [isSelectedCardAt, Forest.get?] using h)
      simp only [Forest.countSelectedCards]
      omega

/-- A count of at most one means what it says: two addresses of selected cards
are the same address. -/
theorem eq_of_countSelectedCards_le_one {doc : Forest} {p q : Path}
    (hcount : doc.countSelectedCards ≤ 1)
    (hp : isSelectedCardAt doc p = true) (hq : isSelectedCardAt doc q = true) : p = q := by
  induction doc generalizing p q with
  | nil => simp [isSelectedCardAt, Forest.get?] at hp
  | cons el c s ihc ihs =>
    simp only [Forest.countSelectedCards] at hcount
    have hel : isSelectedCardAt (Forest.cons el c s) [0] = true →
        (if (isCard el && isSelected el) = true then 1 else 0) = 1 := by
      intro h
      have h0 : (isCard el && isSelected el) = true := by
        simpa [isSelectedCardAt, Forest.get?] using h
      simp [h0]
    have hch : ∀ j r, isSelectedCardAt (Forest.cons el c s) (0 :: j :: r) = true →
        isSelectedCardAt c (j :: r) = true := by
      intro j r h
      simpa [isSelectedCardAt, Forest.get?] using h
    have hsb : ∀ i r, isSelectedCardAt (Forest.cons el c s) ((i + 1) :: r) = true →
        isSelectedCardAt s (i :: r) = true := by
      intro i r h
      simpa [isSelectedCardAt, Forest.get?] using h
    match p, q with
    | [], _ => simp [isSelectedCardAt, Forest.get?] at hp
    | _ :: _, [] => simp [isSelectedCardAt, Forest.get?] at hq
    | [0], [0] => rfl
    | [0], 0 :: k :: q =>
      have h1 := hel hp
      have h2 := one_le_countSelectedCards (hch k q hq)
      omega
    | [0], (k + 1) :: q =>
      have h1 := hel hp
      have h2 := one_le_countSelectedCards (hsb k q hq)
      omega
    | 0 :: j :: p, [0] =>
      have h1 := hel hq
      have h2 := one_le_countSelectedCards (hch j p hp)
      omega
    | 0 :: j :: p, 0 :: k :: q =>
      have := @ihc (j :: p) (k :: q) (by omega) (hch j p hp) (hch k q hq)
      rw [this]
    | 0 :: j :: p, (k + 1) :: q =>
      have h1 := one_le_countSelectedCards (hch j p hp)
      have h2 := one_le_countSelectedCards (hsb k q hq)
      omega
    | (i + 1) :: p, [0] =>
      have h1 := hel hq
      have h2 := one_le_countSelectedCards (hsb i p hp)
      omega
    | (i + 1) :: p, 0 :: k :: q =>
      have h1 := one_le_countSelectedCards (hsb i p hp)
      have h2 := one_le_countSelectedCards (hch k q hq)
      omega
    | (i + 1) :: p, (k + 1) :: q =>
      have := @ihs (i :: p) (k :: q) (by omega) (hsb i p hp) (hsb k q hq)
      simp only [List.cons.injEq] at this
      rw [this.1, this.2]

/-! ## The claims -/

/-- C1: when the click target has an inclusive ancestor that is a card, then
after `onCardClick` exactly one card of the tree carries the `selected` marker
(the count of selected cards is one, and a card is selected exactly when it is
the resolved one), and the resolved card is the nearest inclusive ancestor of
the target that is a card: every other such ancestor encloses it, and it is the
target itself when the target is a card. Nothing is assumed about the markers
before the click. -/
theorem onCardClick_selects_resolved_card (env : Services) (doc : Forest) (target : Path)
    (h : ∃ anc, anc <+: target ∧ isCardAt doc anc = true) :
    ∃ card, closest doc target = some card ∧
      card <+: target ∧ isCardAt doc card = true ∧
      (∀ anc, anc <+: target → isCardAt doc anc = true → anc <+: card) ∧
      (isCardAt doc target = true → card = target) ∧
      (onCardClick env doc target).document.countSelectedCards = 1 ∧
      ∀ q, isSelectedCardAt (onCardClick env doc target).document q = true ↔ q = card := by
  obtain ⟨card, hc⟩ := closest_of_ancestor h
  obtain ⟨_, h2, h3, h4⟩ := closest_some hc
  refine ⟨card, hc, h2, h3, ?_, ?_, countSelectedCards_onCardClick _ hc,
    isSelectedCardAt_onCardClick _ hc⟩
  · intro anc ha hm
    exact h4 anc (isCardAt_ne_nil hm) ha hm
  · intro ht
    have := h4 target (isCardAt_ne_nil ht) (List.prefix_refl _) ht
    exact h2.eq_of_length_le this.length_le

/-- On the sample board a click on the nested card "7", with two other cards
selected before, resolves to that card and not to the card around it. -/
theorem onCardClick_selects_resolved_card_witness :
    (∃ anc, anc <+: [0, 0, 0] ∧ isCardAt sampleBoard anc = true) ∧
    ∃ card, closest sampleBoard [0, 0, 0] = some card ∧
      card <+: [0, 0, 0] ∧ isCardAt sampleBoard card = true ∧
      (∀ anc, anc <+: [0, 0, 0] → isCardAt sampleBoard anc = true → anc <+: card) ∧
      (isCardAt sampleBoard [0, 0, 0] = true → card = [0, 0, 0]) ∧
      (onCardClick envOk sampleBoard [0, 0, 0]).document.countSelectedCards = 1 ∧
      ∀ q, isSelectedCardAt (onCardClick envOk sampleBoard [0, 0, 0]).document q = true
        ↔ q = card :=
  ⟨⟨[0, 0], by decide, by decide⟩,
    onCardClick_selects_resolved_card envOk sampleBoard [0, 0, 0]
      ⟨[0, 0], by decide, by decide⟩⟩

/-- C2: when no inclusive ancestor of the click target is a card, `onCardClick`
does nothing: the tree, and so the `selected` marker of every element, is as
before, and no notification and no clipboard write is requested. Nothing is
thrown either, unless the target is the document node, which has no `closest`. -/
theorem onCardClick_off_card_noop (env : Services) (doc : Forest) (target : Path)
    (h : ∀ anc, anc <+: target → isCardAt doc anc = false) :
    (onCardClick env doc target).document = doc ∧
    (∀ q, ((onCardClick env doc target).document.get? q).map isSelected
        = (doc.get? q).map isSelected) ∧
    (∀ c ∈ (onCardClick env doc target).calls, c.isNotification = false) ∧
    (∀ c ∈ (onCardClick env doc target).calls, c.isClipboardWrite = false) ∧
    (onCardClick env doc target).thrown
      = if target = [] then some closestTypeError else none := by
  have hn : closest doc target = none := by
    cases hc : closest doc target with
    | none => rfl
    | some card =>
      obtain ⟨_, h2, h3, _⟩ := closest_some hc
      rw [h card h2] at h3; cases h3
  rw [onCardClick_none _ hn]
  simp

theorem ancestors_of_column {anc : Path} (h : anc <+: [0]) : anc = [] ∨ anc = [0] := by
  have hm := (List.mem_inits anc [0]).mpr h
  simpa [List.inits] using hm

/-- On the sample board a click on the column, which holds cards but is none,
changes nothing. -/
theorem onCardClick_off_card_noop_witness :
    (∀ anc, anc <+: [0] → isCardAt sampleBoard anc = false) ∧
    (onCardClick envOk sampleBoard [0]).document = sampleBoard ∧
    (∀ q, ((onCardClick envOk sampleBoard [0]).document.get? q).map isSelected
        = (sampleBoard.get? q).map isSelected) ∧
    (∀ c ∈ (onCardClick envOk sampleBoard [0]).calls, c.isNotification = false) ∧
    (∀ c ∈ (onCardClick envOk sampleBoard [0]).calls, c.isClipboardWrite = false) ∧
    (onCardClick envOk sampleBoard [0]).thrown = none :=
  have hyp : ∀ anc, anc <+: [0] → isCardAt sampleBoard anc = false := by
    intro anc h
    rcases ancestors_of_column h with h0 | h0 <;> subst h0 <;> decide
  ⟨hyp, onCardClick_off_card_noop envOk sampleBoard [0] hyp⟩

theorem onCardClick_calls (env : Services) {doc : Forest} {target card : Path} {el : Element}
    (hc : closest doc target = some card) (hg : doc.get? card = some el) :
    (onCardClick env doc target).calls
      = [Call.preventDefault, Call.stopPropagation,
          Call.notificationAdd
            (toastMessage (datasetGet el "name") (datasetGet el "id")) toastOptions]
        ++ (match env.notificationAdd
              (toastMessage (datasetGet el "name") (datasetGet el "id")) toastOptions,
              env.clipboard with
            | .ok _, some _ => [Call.writeText (datasetGet el "id")]
            | .ok _, none => []
            | .error _, _ => []) ∧
    (onCardClick env doc target).thrown
      = (match env.notificationAdd
              (toastMessage (datasetGet el "name") (datasetGet el "id")) toastOptions,
              env.clipboard with
            | .ok _, some _ => none
            | .ok _, none => some clipboardTypeError
            | .error e, _ => some e) := by
  have hd : ((doc.forEachCard (classListRemove selectedClass)).modifyAt
      (classListAdd selectedClass) card).get? card = some (selectEl card card el) := by
    have := get?_onCardClick env hc card
    rw [onCardClick_document _ hc, hg] at this
    exact this
  have hid : datasetGet (selectEl card card el) "id" = datasetGet el "id" := by
    simp [datasetGet, dataset_selectEl]
  have hname : datasetGet (selectEl card card el) "name" = datasetGet el "name" := by
    simp [datasetGet, dataset_selectEl]
  simp only [onCardClick, hc, closest_target_ne_nil hc, if_false, hd, Option.some_bind,
    hid, hname]
  cases env.notificationAdd
    (toastMessage (datasetGet el "name") (datasetGet el "id")) toastOptions <;>
    cases env.clipboard <;> simp

/-- C4: a click that resolves to a card whose data attributes are `id` and
`name` requests exactly one notification; its message is
"✅ SELECTED: " ++ name ++ " (ID: " ++ id ++ ")" and its options are
`type = 'success'`, `sticky = false`. For id "42" and name "Marketing" this is
the message "✅ SELECTED: Marketing (ID: 42)". -/
theorem onCardClick_notification (env : Services) (doc : Forest) (target card : Path)
    (el : Element) (id name : String)
    (hc : closest doc target = some card) (hg : doc.get? card = some el)
    (hid : datasetGet el "id" = some id) (hname : datasetGet el "name" = some name) :
    (onCardClick env doc target).calls.filter Call.isNotification
      = [Call.notificationAdd ("✅ SELECTED: " ++ name ++ " (ID: " ++ id ++ ")")
          { type := "success", sticky := false }] ∧
    (id = "42" → name = "Marketing" →
      (onCardClick env doc target).calls.filter Call.isNotification
        = [Call.notificationAdd "✅ SELECTED: Marketing (ID: 42)"
            { type := "success", sticky := false }]) := by
  have key : (onCardClick env doc target).calls.filter Call.isNotification
      = [Call.notificationAdd ("✅ SELECTED: " ++ name ++ " (ID: " ++ id ++ ")")
          { type := "success", sticky := false }] := by
    rw [(onCardClick_calls _ hc hg).1, hid, hname]
    cases env.notificationAdd (toastMessage (some name) (some id)) toastOptions <;>
      cases env.clipboard <;>
      simp [Call.isNotification, toastMessage, toStr, toastOptions]
  refine ⟨key, ?_⟩
  intro h1 h2
  subst h1 h2
  rw [key]
  decide

/-- On the sample board a click on the card with id "42" and name "Marketing"
requests the one toast "✅ SELECTED: Marketing (ID: 42)". -/
theorem onCardClick_notification_witness :
    (closest sampleBoard [0, 0] = some [0, 0] ∧
      sampleBoard.get? [0, 0]
        = some (mkElement ["analytic-select-card", "selected"] "42" "Marketing") ∧
      datasetGet (mkElement ["analytic-select-card", "selected"] "42" "Marketing") "id"
        = some "42" ∧
      datasetGet (mkElement ["analytic-select-card", "selected"] "42" "Marketing") "name"
        = some "Marketing") ∧
    (onCardClick envOk sampleBoard [0, 0]).calls.filter Call.isNotification
      = [Call.notificationAdd "✅ SELECTED: Marketing (ID: 42)"
          { type := "success", sticky := false }] :=
  ⟨⟨by decide, by decide, by decide, by decide⟩,
    (onCardClick_notification envOk sampleBoard [0, 0] [0, 0]
      (mkElement ["analytic-select-card", "selected"] "42" "Marketing") "42" "Marketing"
      (by decide) (by decide) (by decide) (by decide)).2 rfl rfl⟩

theorem clipboardWrites_onCardClick (env : Services) {doc : Forest} {target card : Path}
    {el : Element} (hc : closest doc target = some card) (hg : doc.get? card = some el) :
    (onCardClick env doc target).calls.filter Call.isClipboardWrite
      = (match env.notificationAdd
              (toastMessage (datasetGet el "name") (datasetGet el "id")) toastOptions,
              env.clipboard with
            | .ok _, some _ => [Call.writeText (datasetGet el "id")]
            | .ok _, none => []
            | .error _, _ => []) := by
  rw [(onCardClick_calls env hc hg).1]
  cases env.notificationAdd
    (toastMessage (datasetGet el "name") (datasetGet el "id")) toastOptions <;>
    cases env.clipboard <;> simp [Call.isClipboardWrite]

theorem notifications_onCardClick (env : Services) {doc : Forest} {target card : Path}
    {el : Element} (hc : closest doc target = some card) (hg : doc.get? card = some el) :
    (onCardClick env doc target).calls.filter Call.isNotification
      = [Call.notificationAdd
          (toastMessage (datasetGet el "name") (datasetGet el "id")) toastOptions] := by
  rw [(onCardClick_calls env hc hg).1]
  cases env.notificationAdd
    (toastMessage (datasetGet el "name") (datasetGet el "id")) toastOptions <;>
    cases env.clipboard <;> simp [Call.isNotification]

/-- C5, as stated, fails where a service fails: on the sample board a click on
the card "9" resolves to that card, and requests no clipboard write when the
notification request throws, nor when `navigator.clipboard` is `undefined`. -/
theorem onCardClick_clipboard_counterexample :
    closest sampleBoard [0, 1] = some [0, 1] ∧
    (onCardClick envFailing sampleBoard [0, 1]).calls.filter Call.isClipboardWrite = [] ∧
    (onCardClick envFailing sampleBoard [0, 1]).thrown = some "toast failed" ∧
    (onCardClick envNoClipboard sampleBoard [0, 1]).calls.filter Call.isClipboardWrite = [] ∧
    (onCardClick envNoClipboard sampleBoard [0, 1]).thrown = some clipboardTypeError := by
  decide

/-- C5, amended: a click that resolves to a card requests exactly one clipboard
write when the notification request returns and `navigator.clipboard` exists,
and none when the notification request throws or `navigator.clipboard` is
`undefined`; a clipboard write that is requested has as payload the value of
the resolved card's `dataset.id` as it is, so for the card with id "42" the
payload is "42". -/
theorem onCardClick_clipboard (env : Services) (doc : Forest) (target card : Path)
    (el : Element)
    (hc : closest doc target = some card) (hg : doc.get? card = some el) :
    (∀ w, env.notificationAdd
        (toastMessage (datasetGet el "name") (datasetGet el "id")) toastOptions = .ok () →
      env.clipboard = some w →
        (onCardClick env doc target).calls.filter Call.isClipboardWrite
          = [Call.writeText (datasetGet el "id")] ∧
        (datasetGet el "id" = some "42" →
          (onCardClick env doc target).calls.filter Call.isClipboardWrite
            = [Call.writeText (some "42")])) ∧
    (∀ e, env.notificationAdd
        (toastMessage (datasetGet el "name") (datasetGet el "id")) toastOptions = .error e →
      (onCardClick env doc target).calls.filter Call.isClipboardWrite = []) ∧
    (env.clipboard = none →
      (onCardClick env doc target).calls.filter Call.isClipboardWrite = []) ∧
    (∀ c ∈ (onCardClick env doc target).calls, c.isClipboardWrite = true →
      c = Call.writeText (datasetGet el "id")) ∧
    ((onCardClick env doc target).calls.filter Call.isClipboardWrite).length ≤ 1 := by
  have key := clipboardWrites_onCardClick env hc hg
  refine ⟨?_, ?_, ?_, ?_, ?_⟩
  · intro w hret hclip
    rw [hret, hclip] at key
    exact ⟨key, fun h => by rw [key, h]⟩
  · intro e hfail
    rw [hfail] at key
    exact key
  · intro hclip
    rw [hclip] at key
    rw [key]
    cases env.notificationAdd
      (toastMessage (datasetGet el "name") (datasetGet el "id")) toastOptions <;> rfl
  · intro c hmem hcw
    have hin : c ∈ (onCardClick env doc target).calls.filter Call.isClipboardWrite :=
      List.mem_filter.mpr ⟨hmem, hcw⟩
    rw [key] at hin
    cases hn : env.notificationAdd
      (toastMessage (datasetGet el "name") (datasetGet el "id")) toastOptions <;>
      cases hcl : env.clipboard <;> simp [hn, hcl] at hin
    exact hin
  · rw [key]
    cases env.notificationAdd
      (toastMessage (datasetGet el "name") (datasetGet el "id")) toastOptions <;>
      cases env.clipboard <;> simp

/-- On the sample board, where the cards "42" and "9" are selected and the
services work, a click on the card "42" writes "42" to the clipboard, once. -/
theorem onCardClick_clipboard_witness :
    (closest sampleBoard [0, 0] = some [0, 0] ∧
      sampleBoard.get? [0, 0]
        = some (mkElement ["analytic-select-card", "selected"] "42" "Marketing") ∧
      envOk.notificationAdd
        (toastMessage
          (datasetGet (mkElement ["analytic-select-card", "selected"] "42" "Marketing") "name")
          (datasetGet (mkElement ["analytic-select-card", "selected"] "42" "Marketing") "id"))
        toastOptions = .ok () ∧
      envOk.clipboard = some (fun _ => true)) ∧
    (onCardClick envOk sampleBoard [0, 0]).calls.filter Call.isClipboardWrite
      = [Call.writeText (some "42")] :=
  ⟨⟨by decide, by decide, rfl, rfl⟩,
    ((onCardClick_clipboard envOk sampleBoard [0, 0] [0, 0]
      (mkElement ["analytic-select-card", "selected"] "42" "Marketing")
      (by decide) (by decide)).1 (fun _ => true) rfl rfl).2 (by decide)⟩

/-- C6: `onCardClick` calls `preventDefault` exactly when the target resolves to
a card, that is when some inclusive ancestor of the target is a card, and it
calls `stopPropagation` exactly then; when no card is resolved neither call is
made. -/
theorem onCardClick_suppresses_iff (env : Services) (doc : Forest) (target : Path) :
    (Call.preventDefault ∈ (onCardClick env doc target).calls
      ↔ ∃ anc, anc <+: target ∧ isCardAt doc anc = true) ∧
    (Call.stopPropagation ∈ (onCardClick env doc target).calls
      ↔ ∃ anc, anc <+: target ∧ isCardAt doc anc = true) := by
  cases hc : closest doc target with
  | none =>
    have hno : ¬ ∃ anc, anc <+: target ∧ isCardAt doc anc = true := by
      intro h
      have := (closest_isSome_iff doc target).mpr h
      rw [hc] at this; cases this
    rw [onCardClick_none _ hc]
    simp [hno]
  | some card =>
    have hyes : ∃ anc, anc <+: target ∧ isCardAt doc anc = true :=
      (closest_isSome_iff doc target).mp (by rw [hc]; rfl)
    obtain ⟨el, hg, _⟩ := (isCardAt_iff doc card).mp (closest_some hc).2.2.1
    rw [(onCardClick_calls _ hc hg).1]
    cases env.notificationAdd _ _ <;> cases env.clipboard <;> simp [hyes]

/-- C8: `onCardClick` leaves in place the set of elements of the tree, the data
attributes of every element (among them `id` and `name`), the card marker of
every element, and the `selected` marker of every element that is not a card. -/
theorem onCardClick_frame (env : Services) (doc : Forest) (target q : Path) :
    ((onCardClick env doc target).document.get? q).isSome = (doc.get? q).isSome ∧
    ((onCardClick env doc target).document.get? q).map Element.dataset
      = (doc.get? q).map Element.dataset ∧
    ((onCardClick env doc target).document.get? q).map (fun el => datasetGet el "id")
      = (doc.get? q).map (fun el => datasetGet el "id") ∧
    ((onCardClick env doc target).document.get? q).map (fun el => datasetGet el "name")
      = (doc.get? q).map (fun el => datasetGet el "name") ∧
    ((onCardClick env doc target).document.get? q).map isCard = (doc.get? q).map isCard ∧
    (∀ el, doc.get? q = some el → isCard el = false →
      ((onCardClick env doc target).document.get? q).map isSelected
        = some (isSelected el)) := by
  cases hc : closest doc target with
  | none =>
    rw [onCardClick_none _ hc]
    refine ⟨rfl, rfl, rfl, rfl, rfl, ?_⟩
    intro el hg _
    simp [hg]
  | some card =>
    rw [get?_onCardClick _ hc]
    cases hg : doc.get? q with
    | none => simp
    | some el =>
      refine ⟨rfl, ?_, ?_, ?_, ?_, ?_⟩
      · simp [dataset_selectEl]
      · simp [datasetGet, dataset_selectEl]
      · simp [datasetGet, dataset_selectEl]
      · simp [isCard_selectEl]
      · intro el0 h0 hnc
        injection h0 with h0
        subst h0
        have hq : q ≠ card := by
          intro hq; subst hq
          obtain ⟨el1, hg1, hcard⟩ := (isCardAt_iff doc q).mp (closest_some hc).2.2.1
          rw [hg] at hg1
          injection hg1 with hg1
          subst hg1
          rw [hnc] at hcard; cases hcard
        simp [selectEl_of_not_card card q el hq hnc]

/-- On the sample board a click on the card "9" leaves the footer, which is not
a card and carries `selected`, as it is. -/
theorem onCardClick_frame_witness :
    (sampleBoard.get? [1] = some { classList := ["footer", "selected"], dataset := [] } ∧
      isCard { classList := ["footer", "selected"], dataset := [] } = false) ∧
    ((onCardClick envOk sampleBoard [0, 1]).document.get? [1]).map isSelected = some true :=
  ⟨⟨by decide, by decide⟩,
    (onCardClick_frame envOk sampleBoard [0, 1] [1]).2.2.2.2.2
      { classList := ["footer", "selected"], dataset := [] } (by decide) (by decide)⟩

theorem countSelectedCards_onCardClick_le (env : Services) (doc : Forest) (target : Path)
    (h : doc.countSelectedCards ≤ 1) :
    (onCardClick env doc target).document.countSelectedCards ≤ 1 := by
  cases hc : closest doc target with
  | none => rw [onCardClick_none _ hc]; exact h
  | some card => exact le_of_eq (countSelectedCards_onCardClick _ hc)

theorem countSelectedCards_clicks_le (env : Services) (targets : List Path) :
    ∀ doc : Forest, doc.countSelectedCards ≤ 1 →
      (clicks env doc targets).countSelectedCards ≤ 1 := by
  induction targets with
  | nil => intro doc h; exact h
  | cons t ts ih =>
    intro doc h
    exact ih _ (countSelectedCards_onCardClick_le env doc t h)

theorem closest_self {doc : Forest} {p : Path} (h : isCardAt doc p = true) :
    closest doc p = some p := by
  obtain ⟨card, hc⟩ := closest_of_ancestor ⟨p, List.prefix_refl _, h⟩
  obtain ⟨_, h2, _, h4⟩ := closest_some hc
  have := h4 p (isCardAt_ne_nil h) (List.prefix_refl _) h
  rw [hc, h2.eq_of_length_le this.length_le]

/-- C3: "at most one card carries the `selected` marker" is preserved by every
run of `onCardClick`, whatever the click; so it holds after any sequence of
clicks on a view in which no card is selected; and for two distinct cards A and
B, a click on A followed by a click on B leaves A without the marker and B with
it. "At most one" is the count of selected cards being at most one, which makes
any two addresses of selected cards equal. -/
theorem atMostOneSelected_invariant :
    (∀ (env : Services) (doc : Forest) (target : Path),
      doc.countSelectedCards ≤ 1 →
        (onCardClick env doc target).document.countSelectedCards ≤ 1) ∧
    (∀ (env : Services) (doc : Forest) (targets : List Path),
      doc.countSelectedCards = 0 →
        (clicks env doc targets).countSelectedCards ≤ 1 ∧
        ∀ p q, isSelectedCardAt (clicks env doc targets) p = true →
          isSelectedCardAt (clicks env doc targets) q = true → p = q) ∧
    (∀ (env : Services) (doc : Forest) (a b : Path),
      a ≠ b → isCardAt doc a = true → isCardAt doc b = true →
        isSelectedCardAt (clicks env doc [a, b]) a = false ∧
        isSelectedCardAt (clicks env doc [a, b]) b = true) := by
  refine ⟨countSelectedCards_onCardClick_le, ?_, ?_⟩
  · intro env doc targets h
    have hle := countSelectedCards_clicks_le env targets doc (by omega)
    exact ⟨hle, fun p q hp hq => eq_of_countSelectedCards_le_one hle hp hq⟩
  · intro env doc a b hab ha hb
    have hb1 : isCardAt (onCardClick env doc a).document b = true := by
      rw [isCardAt_onCardClick]; exact hb
    have hcb := closest_self hb1
    have key := isSelectedCardAt_onCardClick env hcb
    simp only [clicks]
    constructor
    · cases hs : isSelectedCardAt (onCardClick env (onCardClick env doc a).document b).document a with
      | false => rfl
      | true => exact absurd ((key a).mp hs) hab
    · exact (key b).mpr rfl

/-- On the cleared sample board: one click keeps the count at most one, so does
a sequence of clicks on and off cards, and a click on the card "42" followed by
a click on the card "7" nested in it leaves "42" unselected and "7" selected. -/
theorem atMostOneSelected_invariant_witness :
    (clearedBoard.countSelectedCards ≤ 1 ∧
      (onCardClick envOk clearedBoard [0, 0, 0]).document.countSelectedCards ≤ 1) ∧
    (clearedBoard.countSelectedCards = 0 ∧
      (clicks envOk clearedBoard [[0, 0], [1], [0, 1], [0, 0, 0]]).countSelectedCards ≤ 1) ∧
    (([0, 0] : Path) ≠ [0, 0, 0] ∧ isCardAt clearedBoard [0, 0] = true ∧
      isCardAt clearedBoard [0, 0, 0] = true ∧
      isSelectedCardAt (clicks envOk clearedBoard [[0, 0], [0, 0, 0]]) [0, 0] = false ∧
      isSelectedCardAt (clicks envOk clearedBoard [[0, 0], [0, 0, 0]]) [0, 0, 0] = true) :=
  ⟨⟨by decide, atMostOneSelected_invariant.1 envOk clearedBoard [0, 0, 0] (by decide)⟩,
    ⟨by decide,
      (atMostOneSelected_invariant.2.1 envOk clearedBoard [[0, 0], [1], [0, 1], [0, 0, 0]]
        (by decide)).1⟩,
    ⟨by decide, by decide, by decide,
      atMostOneSelected_invariant.2.2 envOk clearedBoard [0, 0] [0, 0, 0]
        (by decide) (by decide) (by decide)⟩⟩

/-! ## Trees that differ in the `selected` markers only -/

theorem get?_map (f : Element → Element) (doc : Forest) (p : Path) :
    (doc.map f).get? p = (doc.get? p).map f := by
  induction doc generalizing p with
  | nil => rfl
  | cons el c s ihc ihs =>
    match p with
    | [] => rfl
    | [0] => rfl
    | 0 :: j :: p => simpa [Forest.map, Forest.get?] using ihc (j :: p)
    | (i + 1) :: p => simpa [Forest.map, Forest.get?] using ihs (i :: p)

theorem Forest.ext_get? : ∀ (a b : Forest), (∀ p, a.get? p = b.get? p) → a = b := by
  intro a
  induction a with
  | nil =>
    intro b h
    cases b with
    | nil => rfl
    | cons el c s => have := h [0]; simp [Forest.get?] at this
  | cons el c s ihc ihs =>
    intro b h
    cases b with
    | nil => have := h [0]; simp [Forest.get?] at this
    | cons el2 c2 s2 =>
      have h0 := h [0]
      simp only [Forest.get?, Option.some.injEq] at h0
      have hc : c = c2 := by
        apply ihc
        intro p
        cases p with
        | nil => rw [get?_nil_path, get?_nil_path]
        | cons j p => simpa [Forest.get?] using h (0 :: j :: p)
      have hs : s = s2 := by
        apply ihs
        intro p
        cases p with
        | nil => rw [get?_nil_path, get?_nil_path]
        | cons i p => simpa [Forest.get?] using h ((i + 1) :: p)
      rw [h0, hc, hs]

theorem sameUpToSelected_get? {doc₁ doc₂ : Forest} (h : SameUpToSelected doc₁ doc₂)
    (p : Path) :
    (doc₁.get? p).map (classListRemove selectedClass)
      = (doc₂.get? p).map (classListRemove selectedClass) := by
  rw [← get?_map, ← get?_map]
  exact congrArg (fun d => Forest.get? d p) h

theorem sameUpToSelected_isCardAt {doc₁ doc₂ : Forest} (h : SameUpToSelected doc₁ doc₂) :
    isCardAt doc₁ = isCardAt doc₂ := by
  funext p
  have := sameUpToSelected_get? h p
  unfold isCardAt
  cases h1 : doc₁.get? p with
  | none =>
    cases h2 : doc₂.get? p with
    | none => rfl
    | some e2 => rw [h1, h2] at this; cases this
  | some e1 =>
    cases h2 : doc₂.get? p with
    | none => rw [h1, h2] at this; cases this
    | some e2 =>
      rw [h1, h2] at this
      simp only [Option.map_some', Option.some.injEq] at this
      have hh := congrArg isCard this
      rw [isCard_classListRemove, isCard_classListRemove] at hh
      exact hh

theorem sameUpToSelected_closest {doc₁ doc₂ : Forest} (h : SameUpToSelected doc₁ doc₂)
    (target : Path) : closest doc₁ target = closest doc₂ target := by
  unfold closest
  rw [sameUpToSelected_isCardAt h]

theorem sameUpToSelected_dataset {doc₁ doc₂ : Forest} (h : SameUpToSelected doc₁ doc₂)
    {p : Path} {e₁ e₂ : Element} (h1 : doc₁.get? p = some e₁) (h2 : doc₂.get? p = some e₂) :
    e₁.dataset = e₂.dataset := by
  have := sameUpToSelected_get? h p
  rw [h1, h2] at this
  simp only [Option.map_some', Option.some.injEq] at this
  have hd := congrArg Element.dataset this
  simpa [dataset_classListRemove] using hd

/-- C7, as stated, fails on a click off the cards: the sample board and the
cleared board differ only in `selected` markers, the column `[0]` is no card and
has no card above it, and after the click the card "42" is selected in the one
tree and not in the other. -/
theorem onCardClick_stateless_counterexample :
    SameUpToSelected sampleBoard clearedBoard ∧
    closest sampleBoard [0] = none ∧
    isSelectedCardAt (onCardClick envOk sampleBoard [0]).document [0, 0] = true ∧
    isSelectedCardAt (onCardClick envOk clearedBoard [0]).document [0, 0] = false := by
  decide

/-- C7, amended: for two trees that differ only in which elements carry the
`selected` marker and the same click target, the two runs of `onCardClick` make
the same calls (the same notification, clipboard payload and event suppression)
and throw the same; when the target resolves to a card they end with the same
cards carrying the marker, and when it resolves to no card each run leaves its
own tree as it was. -/
theorem onCardClick_stateless (env : Services) (doc₁ doc₂ : Forest) (target : Path)
    (h : SameUpToSelected doc₁ doc₂) :
    (onCardClick env doc₁ target).calls = (onCardClick env doc₂ target).calls ∧
    (onCardClick env doc₁ target).thrown = (onCardClick env doc₂ target).thrown ∧
    ((∃ anc, anc <+: target ∧ isCardAt doc₁ anc = true) →
      ∀ q, isCardAt (onCardClick env doc₁ target).document q
            = isCardAt (onCardClick env doc₂ target).document q ∧
          isSelectedCardAt (onCardClick env doc₁ target).document q
            = isSelectedCardAt (onCardClick env doc₂ target).document q) ∧
    ((¬ ∃ anc, anc <+: target ∧ isCardAt doc₁ anc = true) →
      (onCardClick env doc₁ target).document = doc₁ ∧
      (onCardClick env doc₂ target).document = doc₂) := by
  have hcl := sameUpToSelected_closest h target
  cases hc : closest doc₁ target with
  | none =>
    rw [onCardClick_none _ hc, onCardClick_none _ (hcl ▸ hc)]
    refine ⟨rfl, rfl, ?_, fun _ => ⟨rfl, rfl⟩⟩
    intro hex
    have := (closest_isSome_iff doc₁ target).mpr hex
    rw [hc] at this; cases this
  | some card =>
    have hc2 : closest doc₂ target = some card := hcl ▸ hc
    obtain ⟨e₁, hg1, _⟩ := (isCardAt_iff doc₁ card).mp (closest_some hc).2.2.1
    obtain ⟨e₂, hg2, _⟩ := (isCardAt_iff doc₂ card).mp (closest_some hc2).2.2.1
    have hd : e₁.dataset = e₂.dataset := sameUpToSelected_dataset h hg1 hg2
    have hid : datasetGet e₁ "id" = datasetGet e₂ "id" := by simp [datasetGet, hd]
    have hname : datasetGet e₁ "name" = datasetGet e₂ "name" := by simp [datasetGet, hd]
    have c1 := onCardClick_calls env hc hg1
    have c2 := onCardClick_calls env hc2 hg2
    rw [hid, hname] at c1
    refine ⟨c1.1.trans c2.1.symm, c1.2.trans c2.2.symm, ?_, ?_⟩
    · intro _ q
      constructor
      · rw [isCardAt_onCardClick, isCardAt_onCardClick, sameUpToSelected_isCardAt h]
      · rw [Bool.eq_iff_iff, isSelectedCardAt_onCardClick _ hc, isSelectedCardAt_onCardClick _ hc2]
    · intro hno
      exact absurd ((closest_isSome_iff doc₁ target).mp (by rw [hc]; rfl)) hno

/-- On the sample board and the cleared board a click on the nested card "7"
makes the same calls and ends with the same cards selected. -/
theorem onCardClick_stateless_witness :
    SameUpToSelected sampleBoard clearedBoard ∧
    (∃ anc, anc <+: [0, 0, 0] ∧ isCardAt sampleBoard anc = true) ∧
    (onCardClick envOk sampleBoard [0, 0, 0]).calls
      = (onCardClick envOk clearedBoard [0, 0, 0]).calls ∧
    ∀ q, isCardAt (onCardClick envOk sampleBoard [0, 0, 0]).document q
          = isCardAt (onCardClick envOk clearedBoard [0, 0, 0]).document q ∧
        isSelectedCardAt (onCardClick envOk sampleBoard [0, 0, 0]).document q
          = isSelectedCardAt (onCardClick envOk clearedBoard [0, 0, 0]).document q :=
  ⟨by decide, ⟨[0, 0], by decide, by decide⟩,
    (onCardClick_stateless envOk sampleBoard clearedBoard [0, 0, 0] (by decide)).1,
    (onCardClick_stateless envOk sampleBoard clearedBoard [0, 0, 0] (by decide)).2.2.1
      ⟨[0, 0], by decide, by decide⟩⟩

/-! ## Failing services -/

theorem onCardClick_writeText_irrelevant (env : Services) (w₁ w₂ : JSString → Bool)
    (doc : Forest) (target : Path) :
    onCardClick { notificationAdd := env.notificationAdd, clipboard := some w₁ } doc target
      = onCardClick { notificationAdd := env.notificationAdd, clipboard := some w₂ }
          doc target := by
  unfold onCardClick
  split
  · rfl
  · cases closest doc target with
    | none => rfl
    | some card => rfl

/-- C9: when the notification request throws during a click that resolves to a
card, `onCardClick` throws that same error, the tree is the one a run with a
working notification service leaves (the resolved card, and no other, is
selected), `preventDefault` and `stopPropagation` have been called, and no
clipboard write is requested; and, for every click, the outcome of the handler
does not depend on whether the promise of the clipboard write is fulfilled or
rejected. -/
theorem onCardClick_service_failures :
    (∀ (env : Services) (doc : Forest) (target card : Path) (el : Element) (e : JSError),
      closest doc target = some card → doc.get? card = some el →
      env.notificationAdd
        (toastMessage (datasetGet el "name") (datasetGet el "id")) toastOptions = .error e →
        (onCardClick env doc target).thrown = some e ∧
        (onCardClick env doc target).document
          = (onCardClick { notificationAdd := notificationOk, clipboard := env.clipboard }
              doc target).document ∧
        (∀ q, isSelectedCardAt (onCardClick env doc target).document q = true ↔ q = card) ∧
        Call.preventDefault ∈ (onCardClick env doc target).calls ∧
        Call.stopPropagation ∈ (onCardClick env doc target).calls ∧
        (∀ c ∈ (onCardClick env doc target).calls, c.isClipboardWrite = false)) ∧
    (∀ (env : Services) (doc : Forest) (target : Path) (w₁ w₂ : JSString → Bool),
      onCardClick { notificationAdd := env.notificationAdd, clipboard := some w₁ } doc target
        = onCardClick { notificationAdd := env.notificationAdd, clipboard := some w₂ }
            doc target) := by
  constructor
  · intro env doc target card el e hc hg hfail
    have hcalls := onCardClick_calls env hc hg
    rw [hfail] at hcalls
    refine ⟨hcalls.2, ?_, isSelectedCardAt_onCardClick env hc, ?_, ?_, ?_⟩
    · rw [onCardClick_document env hc, onCardClick_document _ hc]
    · rw [hcalls.1]; simp
    · rw [hcalls.1]; simp
    · rw [hcalls.1]; simp [Call.isClipboardWrite]
  · intro env doc target w₁ w₂
    exact onCardClick_writeText_irrelevant env w₁ w₂ doc target

/-- On the sample board with a notification service that throws "toast failed",
a click on the card "9" throws "toast failed", selects that card, suppresses the
event and requests no clipboard write; and with working services the outcome is
the same for a fulfilled and a rejected clipboard promise. -/
theorem onCardClick_service_failures_witness :
    (closest sampleBoard [0, 1] = some [0, 1] ∧
      sampleBoard.get? [0, 1]
        = some (mkElement ["selected", "analytic-select-card"] "9" "Support") ∧
      envFailing.notificationAdd
        (toastMessage
          (datasetGet (mkElement ["selected", "analytic-select-card"] "9" "Support") "name")
          (datasetGet (mkElement ["selected", "analytic-select-card"] "9" "Support") "id"))
        toastOptions = .error "toast failed") ∧
    ((onCardClick envFailing sampleBoard [0, 1]).thrown = some "toast failed" ∧
      (onCardClick envFailing sampleBoard [0, 1]).document
        = (onCardClick { notificationAdd := notificationOk, clipboard := envFailing.clipboard }
            sampleBoard [0, 1]).document ∧
      (∀ q, isSelectedCardAt (onCardClick envFailing sampleBoard [0, 1]).document q = true
        ↔ q = [0, 1]) ∧
      Call.preventDefault ∈ (onCardClick envFailing sampleBoard [0, 1]).calls ∧
      Call.stopPropagation ∈ (onCardClick envFailing sampleBoard [0, 1]).calls ∧
      (∀ c ∈ (onCardClick envFailing sampleBoard [0, 1]).calls, c.isClipboardWrite = false)) ∧
    onCardClick { notificationAdd := envOk.notificationAdd, clipboard := some (fun _ => true) }
        sampleBoard [0, 1]
      = onCardClick { notificationAdd := envOk.notificationAdd, clipboard := some (fun _ => false) }
        sampleBoard [0, 1] :=
  ⟨⟨by decide, by decide, rfl⟩,
    onCardClick_service_failures.1 envFailing sampleBoard [0, 1] [0, 1]
      (mkElement ["selected", "analytic-select-card"] "9" "Support") "toast failed"
      (by decide) (by decide) rfl,
    onCardClick_service_failures.2 envOk sampleBoard [0, 1] (fun _ => true) (fun _ => false)⟩

/-! ## Repeated clicks on the same target -/

theorem classListRemove_idem (el : Element) :
    classListRemove selectedClass (classListRemove selectedClass el)
      = classListRemove selectedClass el := by
  cases el
  simp [classListRemove]

theorem classListAdd_idem (el : Element) :
    classListAdd selectedClass (classListAdd selectedClass el)
      = classListAdd selectedClass el := by
  cases el with
  | mk cl ds =>
    by_cases h : selectedClass ∈ cl <;> simp [classListAdd, h]

theorem classListRemove_classListAdd (el : Element) :
    classListRemove selectedClass (classListAdd selectedClass el)
      = classListRemove selectedClass el := by
  cases el with
  | mk cl ds =>
    by_cases h : selectedClass ∈ cl <;> simp [classListAdd, classListRemove, h, List.filter_append]

theorem selectEl_idem (card q : Path) (el : Element) :
    selectEl card q (selectEl card q el) = selectEl card q el := by
  have hc := isCard_selectEl card q el
  by_cases hq : q = card
  · subst hq
    by_cases hcard : isCard el = true
    · rw [hcard] at hc
      have : selectEl q q el = classListAdd selectedClass (classListRemove selectedClass el) := by
        simp [selectEl, hcard]
      rw [this] at hc ⊢
      simp [selectEl, hc, classListRemove_classListAdd, classListRemove_idem]
    · have hf : isCard el = false := by simpa using hcard
      rw [hf] at hc
      have : selectEl q q el = classListAdd selectedClass el := by
        simp [selectEl, hf]
      rw [this] at hc ⊢
      simp [selectEl, hc, classListAdd_idem]
  · by_cases hcard : isCard el = true
    · rw [hcard] at hc
      have : selectEl card q el = classListRemove selectedClass el := by
        simp [selectEl, hq, hcard]
      rw [this] at hc ⊢
      simp [selectEl, hq, hc, classListRemove_idem]
    · have hf : isCard el = false := by simpa using hcard
      simp [selectEl, hq, hf]

theorem Outcome.eq_of {a b : Outcome} (h1 : a.document = b.document)
    (h2 : a.calls = b.calls) (h3 : a.thrown = b.thrown) : a = b := by
  cases a; cases b
  simp_all

theorem closest_onCardClick (env : Services) (doc : Forest) (target t : Path) :
    closest (onCardClick env doc target).document t = closest doc t := by
  have : isCardAt (onCardClick env doc target).document = isCardAt doc :=
    funext (isCardAt_onCardClick env doc target)
  unfold closest
  rw [this]

/-- A second run of the handler on the same target repeats the first outcome. -/
theorem onCardClick_idem (env : Services) (doc : Forest) (target : Path) :
    onCardClick env (onCardClick env doc target).document target
      = onCardClick env doc target := by
  cases hc : closest doc target with
  | none =>
    rw [onCardClick_none env hc]
    exact onCardClick_none env hc
  | some card =>
    have hc2 : closest (onCardClick env doc target).document target = some card := by
      rw [closest_onCardClick, hc]
    obtain ⟨el, hg, _⟩ := (isCardAt_iff doc card).mp (closest_some hc).2.2.1
    have hg2 : (onCardClick env doc target).document.get? card
        = some (selectEl card card el) := by
      rw [get?_onCardClick env hc, hg]; rfl
    have c1 := onCardClick_calls env hc hg
    have c2 := onCardClick_calls env hc2 hg2
    have hid : datasetGet (selectEl card card el) "id" = datasetGet el "id" := by
      simp [datasetGet, dataset_selectEl]
    have hname : datasetGet (selectEl card card el) "name" = datasetGet el "name" := by
      simp [datasetGet, dataset_selectEl]
    rw [hid, hname] at c2
    apply Outcome.eq_of
    · apply Forest.ext_get?
      intro q
      rw [get?_onCardClick env hc2, get?_onCardClick env hc]
      cases doc.get? q <;> simp [selectEl_idem]
    · exact c2.1.trans c1.1.symm
    · exact c2.2.trans c1.2.symm

/-! ## Mounting the view more than once -/

theorem mountTimes_spec (self : Services) (n : Nat) :
    ∀ page : Page,
      (mountTimes self n page).document = page.document ∧
      (mountTimes self n page).clickListeners
        = page.clickListeners ++ List.replicate n self := by
  induction n with
  | zero => intro page; simp [mountTimes]
  | succ n ih =>
    intro page
    obtain ⟨h1, h2⟩ := ih (onMounted self page)
    refine ⟨h1, ?_⟩
    rw [mountTimes, h2, List.replicate_succ]
    simp [onMounted]

theorem runListeners_replicate (self : Services) (target : Path) (n : Nat) :
    ∀ doc : Forest,
      (runListeners target (List.replicate n self) doc).2
        = List.replicate n (onCardClick self doc target) ∧
      (runListeners target (List.replicate (n + 1) self) doc).1
        = (onCardClick self doc target).document := by
  induction n with
  | zero => intro doc; simp [runListeners]
  | succ n ih =>
    intro doc
    obtain ⟨h1, h2⟩ := ih (onCardClick self doc target).document
    rw [onCardClick_idem] at h1 h2
    constructor
    · rw [List.replicate_succ, runListeners, h1, List.replicate_succ]
    · rw [List.replicate_succ, runListeners, h2]

theorem allCalls_replicate (out : Outcome) (p : Call → Bool) (n : Nat) :
    (allCalls (List.replicate n out)).countP p = n * out.calls.countP p := by
  induction n with
  | zero => simp [allCalls]
  | succ n ih =>
    rw [List.replicate_succ, allCalls, List.countP_append, ih]
    ring

/-- C10, as stated, fails where a service fails: on the sample board, after
three mounts with a notification service that throws, a click on the card "42"
runs three listeners and requests three notifications and no clipboard write;
and the same with working notifications and `navigator.clipboard` `undefined`. -/
theorem mounted_n_times_runs_n_times_counterexample :
    closest sampleBoard [0, 0] = some [0, 0] ∧
    (mountTimes envFailing 3
      { document := sampleBoard, clickListeners := [] }).clickListeners.length = 3 ∧
    (dispatchClick (mountTimes envFailing 3 { document := sampleBoard, clickListeners := [] })
        [0, 0]).outcomes.length = 3 ∧
    (allCalls (dispatchClick
        (mountTimes envFailing 3 { document := sampleBoard, clickListeners := [] })
        [0, 0]).outcomes).countP Call.isNotification = 3 ∧
    (allCalls (dispatchClick
        (mountTimes envFailing 3 { document := sampleBoard, clickListeners := [] })
        [0, 0]).outcomes).countP Call.isClipboardWrite = 0 ∧
    (allCalls (dispatchClick
        (mountTimes envNoClipboard 3 { document := sampleBoard, clickListeners := [] })
        [0, 0]).outcomes).countP Call.isClipboardWrite = 0 := by
  decide

/-- C10, amended: every mount appends one click listener to those of the
document and the handler removes none, so after `n` mounts of the view on a page
without listeners there are `n` of them, before and after a click; a click on a
target that resolves to a card then runs `onCardClick` `n` times and requests
`n` notifications, and for `n + 1` mounts the tree it leaves is the one a single
run leaves. It requests `n` clipboard writes when the notification request
returns and `navigator.clipboard` exists, and none when the notification
request throws or `navigator.clipboard` is `undefined`. -/
theorem mounted_n_times_runs_n_times (self : Services) (doc : Forest) (target : Path)
    (n : Nat)
    (hcard : ∃ anc, anc <+: target ∧ isCardAt doc anc = true) :
    (∀ page : Page,
      (onMounted self page).clickListeners.length = page.clickListeners.length + 1) ∧
    (mountTimes self n { document := doc, clickListeners := [] }).clickListeners.length = n ∧
    (dispatchClick (mountTimes self n { document := doc, clickListeners := [] })
        target).page.clickListeners.length = n ∧
    (dispatchClick (mountTimes self n { document := doc, clickListeners := [] })
        target).outcomes.length = n ∧
    (allCalls (dispatchClick (mountTimes self n { document := doc, clickListeners := [] })
        target).outcomes).countP Call.isNotification = n ∧
    (dispatchClick (mountTimes self (n + 1) { document := doc, clickListeners := [] })
        target).page.document = (onCardClick self doc target).document ∧
    ∃ card el, closest doc target = some card ∧ doc.get? card = some el ∧
      (∀ w, self.notificationAdd
          (toastMessage (datasetGet el "name") (datasetGet el "id")) toastOptions = .ok () →
        self.clipboard = some w →
        (allCalls (dispatchClick (mountTimes self n { document := doc, clickListeners := [] })
          target).outcomes).countP Call.isClipboardWrite = n) ∧
      (∀ e, self.notificationAdd
          (toastMessage (datasetGet el "name") (datasetGet el "id")) toastOptions = .error e →
        (allCalls (dispatchClick (mountTimes self n { document := doc, clickListeners := [] })
          target).outcomes).countP Call.isClipboardWrite = 0) ∧
      (self.clipboard = none →
        (allCalls (dispatchClick (mountTimes self n { document := doc, clickListeners := [] })
          target).outcomes).countP Call.isClipboardWrite = 0) := by
  obtain ⟨card, hc⟩ := closest_of_ancestor hcard
  obtain ⟨el, hg, _⟩ := (isCardAt_iff doc card).mp (closest_some hc).2.2.1
  have hnotif := notifications_onCardClick self hc hg
  have hclip := clipboardWrites_onCardClick self hc hg
  have hm := mountTimes_spec self n { document := doc, clickListeners := [] }
  have hm1 := mountTimes_spec self (n + 1) { document := doc, clickListeners := [] }
  simp only [List.nil_append] at hm hm1
  have hrun := runListeners_replicate self target n doc
  have hcount : ∀ p : Call → Bool,
      (allCalls (dispatchClick (mountTimes self n { document := doc, clickListeners := [] })
        target).outcomes).countP p
        = n * ((onCardClick self doc target).calls.filter p).length := by
    intro p
    simp only [dispatchClick, hm.1, hm.2, hrun.1, allCalls_replicate]
    rw [List.countP_eq_length_filter]
  refine ⟨?_, ?_, ?_, ?_, ?_, ?_, card, el, hc, hg, ?_, ?_, ?_⟩
  · intro page; simp [onMounted]
  · rw [hm.2]; simp
  · simp [dispatchClick, hm.2]
  · simp [dispatchClick, hm.1, hm.2, hrun.1]
  · rw [hcount, hnotif]; simp
  · simp only [dispatchClick, hm1.1, hm1.2, hrun.2]
  · intro w hret hw
    rw [hcount, hclip, hret, hw]; simp
  · intro e hfail
    rw [hcount, hclip, hfail]; simp
  · intro hnone
    rw [hcount, hclip, hnone]
    cases self.notificationAdd
      (toastMessage (datasetGet el "name") (datasetGet el "id")) toastOptions <;> simp

/-- On the sample board, after three mounts with working services, a click on
the card "42" runs the handler three times, with three toasts and three
clipboard writes. -/
theorem mounted_n_times_runs_n_times_witness :
    (∃ anc, anc <+: [0, 0] ∧ isCardAt sampleBoard anc = true) ∧
    (dispatchClick (mountTimes envOk 3 { document := sampleBoard, clickListeners := [] })
        [0, 0]).outcomes.length = 3 ∧
    (allCalls (dispatchClick (mountTimes envOk 3 { document := sampleBoard, clickListeners := [] })
        [0, 0]).outcomes).countP Call.isNotification = 3 ∧
    (allCalls (dispatchClick (mountTimes envOk 3 { document := sampleBoard, clickListeners := [] })
        [0, 0]).outcomes).countP Call.isClipboardWrite = 3 :=
  have hyp : ∃ anc, anc <+: [0, 0] ∧ isCardAt sampleBoard anc = true :=
    ⟨[0, 0], by decide, by decide⟩
  have thm := mounted_n_times_runs_n_times envOk sampleBoard [0, 0] 3 hyp
  ⟨hyp, thm.2.2.2.1, thm.2.2.2.2.1,
    match thm.2.2.2.2.2.2 with
    | ⟨_, _, _, _, hwrites, _, _⟩ => hwrites (fun _ => true) rfl rfl⟩

end Analytic
